import Mathlib

/-!
Verification development for the `ranked_voting` crate of the `timrcv`
repository (instant-runoff voting engine).

The Rust sources under `src/ranked_voting/src/` are shallowly embedded
below.  Conventions used throughout:

* `u64`/`u32` counters become `Nat` (no claim in this development depends
  on machine-integer wraparound);
* Rust `HashMap`/`HashSet` values become association lists in insertion
  order; only order-insensitive facts are stated about them, and lookups
  follow the `HashMap` semantics (a re-inserted key overwrites, so the
  last binding wins);
* Rust `Result<_, VotingErrors>` becomes `Except`; run-time panics
  (`unimplemented!`, `panic!`, `Option::unwrap` on `None`) are modelled
  explicitly by the `RunError.panic` variant so that the behaviour of the
  code on panicking inputs stays observable;
* Rust's stable `sort_by_key` is modelled by Mathlib's (stable)
  `List.insertionSort`.
-/

/-! ## Data model, mirroring `config.rs` -/

/-- `config.rs` `BallotChoice`. -/
inductive BallotChoice where
  | Candidate (name : String)
  | UndeclaredWriteIn
  | Overvote
  | Undervote
  | Blank
  deriving DecidableEq

/-- `config.rs` `Ballot`: ordered choices plus a count (`u64`). -/
structure Ballot where
  candidates : List BallotChoice
  count : Nat
  deriving DecidableEq

/-- `config.rs` `EliminationStats`. -/
structure EliminationStats where
  name : String
  transfers : List (String × Nat)
  exhausted : Nat
  deriving DecidableEq

/-- `config.rs` `RoundStats`. -/
structure RoundStats where
  round : Nat
  tally : List (String × Nat)
  tally_results_elected : List String
  tally_result_eliminated : List EliminationStats
  deriving DecidableEq

/-- `config.rs` `VotingResult`. -/
structure VotingResult where
  winners : Option (List String)
  threshold : Nat
  round_stats : List RoundStats
  deriving DecidableEq

/-- `config.rs` `VotingErrors` declares `EmptyElection` and `NoConvergence`;
`lib.rs` line 723 additionally constructs `VotingErrors::NoCandidateToEliminate`,
so the variant is included here as referenced by the engine code. -/
inductive VotingErrors where
  | EmptyElection
  | NoConvergence
  | NoCandidateToEliminate
  deriving DecidableEq

/-- A returned error of the engine, or a Rust panic (`unimplemented!`,
`panic!`, `unwrap` on `None`), made explicit so that panicking control
paths are first-class values of the embedding. -/
inductive RunError where
  | err (e : VotingErrors)
  | panic (msg : String)
  deriving DecidableEq

/-- `config.rs` `TieBreakMode`. -/
inductive TieBreakMode where
  | UseCandidateOrder
  | Random (seed : Nat)
  deriving DecidableEq

/-- `config.rs` `OverVoteRule`. -/
inductive OverVoteRule where
  | ExhaustImmediately
  | AlwaysSkipToNextRank
  deriving DecidableEq

/-- `config.rs` `DuplicateCandidateMode`. -/
inductive DuplicateCandidateMode where
  | Exhaust
  | SkipDuplicate
  deriving DecidableEq

/-- `config.rs` `WinnerElectionMode` (source spelling kept). -/
inductive WinnerElectionMode where
  | SingelWinnerMajority
  deriving DecidableEq

/-- `config.rs` `EliminationAlgorithm`. -/
inductive EliminationAlgorithm where
  | Batch
  | Single
  deriving DecidableEq

/-- `config.rs` `MaxSkippedRank` (source spelling kept). -/
inductive MaxSkippedRank where
  | Unlimited
  | ExhaustOnFirstOccurence
  | MaxAllowed (n : Nat)
  deriving DecidableEq

/-- `config.rs` `VoteRules`, all nine fields in declaration order. -/
structure VoteRules where
  tiebreak_mode : TieBreakMode
  overvote_rule : OverVoteRule
  winner_election_mode : WinnerElectionMode
  number_of_winners : Nat
  minimum_vote_threshold : Option Nat
  max_skipped_rank_allowed : MaxSkippedRank
  max_rankings_allowed : Option Nat
  elimination_algorithm : EliminationAlgorithm
  duplicate_candidate_mode : DuplicateCandidateMode
  deriving DecidableEq

/-- `config.rs` `VoteRules::DEFAULT_RULES`. -/
def VoteRules.DEFAULT_RULES : VoteRules :=
  { tiebreak_mode := TieBreakMode.UseCandidateOrder
    overvote_rule := OverVoteRule.AlwaysSkipToNextRank
    winner_election_mode := WinnerElectionMode.SingelWinnerMajority
    max_skipped_rank_allowed := MaxSkippedRank.Unlimited
    number_of_winners := 1
    minimum_vote_threshold := none
    max_rankings_allowed := none
    elimination_algorithm := EliminationAlgorithm.Single
    duplicate_candidate_mode := DuplicateCandidateMode.SkipDuplicate }

/-- `config.rs` `Candidate`. -/
structure Candidate where
  name : String
  code : Option String
  excluded : Bool
  deriving DecidableEq

/-! ## Internal structures, mirroring the private part of `lib.rs` -/

/-- `lib.rs` `CandidateId` (a `u32` newtype). -/
abbrev CandidateId := Nat

/-- `lib.rs` `Choice`. -/
inductive Choice where
  | BlankOrUndervote
  | Overvote
  | Undeclared
  | Filled (cid : CandidateId)
  deriving DecidableEq

/-- `lib.rs` `RankedChoice`. -/
structure RankedChoice where
  first_valid : CandidateId
  rest : List Choice
  deriving DecidableEq

/-- `lib.rs` `VoteInternal` (`VoteCount` is a `u64` newtype, embedded as `Nat`). -/
structure VoteInternal where
  candidates : RankedChoice
  count : Nat
  deriving DecidableEq

/-- `lib.rs` `RoundCandidateStatusInternal`. -/
inductive RoundCandidateStatusInternal where
  | StillRunning
  | Elected
  | Eliminated (transfers : List (CandidateId × Nat)) (exhausted : Nat)
  deriving DecidableEq

/-- `lib.rs` `RoundStatistics` (internal round statistics). -/
structure RoundStatistics where
  candidate_stats : List (CandidateId × Nat × RoundCandidateStatusInternal)
  uwi_elimination_stats : Option (List (CandidateId × Nat) × Nat)
  deriving DecidableEq

/-- `lib.rs` `RoundResult`. -/
structure RoundResult where
  votes : List VoteInternal
  stats : RoundStatistics
  vote_threshold : Nat
  deriving DecidableEq

/-- `lib.rs` `TiebreakSituation` (source spelling kept). -/
inductive TiebreakSituation where
  | Clean
  | TiebreakOccured
  deriving DecidableEq

/-- `lib.rs` `AdvanceRuleCheck`. -/
inductive AdvanceRuleCheck where
  | DuplicateCandidates
  | FailOvervote
  | FailSkippedRank
  deriving DecidableEq

/-- `lib.rs` `CheckResult`. -/
structure CheckResult where
  votes : List VoteInternal
  candidates : List (String × CandidateId)
  uwi_first_votes : List VoteInternal
  count_exhausted_uwi_first_round : Nat
  deriving DecidableEq

/-! ## Association-list counterparts of `HashMap` operations -/

/-- `HashMap::get` on a map built by successive `insert`s of the listed
bindings: the last binding for a key wins. -/
def hmGet {α β : Type} [DecidableEq α] (l : List (α × β)) (k : α) : Option β :=
  l.foldl (fun acc p => if p.1 = k then some p.2 else acc) none

/-- `map.entry(k).or_insert(0); *e += c` on a `HashMap<_, VoteCount>`. -/
def bumpAssoc (m : List (CandidateId × Nat)) (k : CandidateId) (c : Nat) :
    List (CandidateId × Nat) :=
  if m.any (fun q => q.1 = k) then
    m.map (fun q => if q.1 = k then (q.1, q.2 + c) else q)
  else m ++ [(k, c)]

/-- `tally.insert(cid, VoteCount::EMPTY)`: overwrite or append a zero entry. -/
def hmInsertZero (m : List (CandidateId × Nat)) (k : CandidateId) :
    List (CandidateId × Nat) :=
  if m.any (fun q => q.1 = k) then
    m.map (fun q => if q.1 = k then (q.1, 0) else q)
  else m ++ [(k, 0)]

/-- `if let Some(vc) = tally.get_mut(&k) { *vc += c }`: bump only if present. -/
def hmBumpIfPresent (m : List (CandidateId × Nat)) (k : CandidateId) (c : Nat) :
    List (CandidateId × Nat) :=
  if m.any (fun q => q.1 = k) then
    m.map (fun q => if q.1 = k then (q.1, q.2 + c) else q)
  else m

/-! ## Advancement rules (`lib.rs` `check_advance_rules`, `advance_voting`,
`advance_voting_initial`) -/

/-- The duplicate-candidate scan of `check_advance_rules` (`lib.rs` 1031-1044):
walk the slice keeping the set of `Filled` ids seen so far; report a
duplicate as soon as a seen id reappears. -/
def findDuplicate (seen : List CandidateId) : List Choice → Bool
  | [] => false
  | Choice.Filled cid :: rest =>
      if cid ∈ seen then true else findDuplicate (cid :: seen) rest
  | _ :: rest => findDuplicate seen rest

/-- The `MaxAllowed` loop of `check_advance_rules` (`lib.rs` 1070-1093),
embedded arm for arm.  `start` is `start_skipped_block`, `idx` the
enumeration index.  Note that the first (guarded) Rust arm falls through to
the wildcard arm when its guard `idx >= start_idx + rl` fails, which resets
`start_skipped_block` to `None` even though the current choice is a blank. -/
def skippedBlockFail (rl : Nat) : List Choice → Option Nat → Nat → Bool
  | [], _, _ => false
  | choice :: rest, start, idx =>
    match choice, start with
    | Choice.BlankOrUndervote, some start_idx =>
        if start_idx + rl ≤ idx then true
        else skippedBlockFail rl rest none (idx + 1)
    | Choice.BlankOrUndervote, none => skippedBlockFail rl rest (some idx) (idx + 1)
    | _, _ => skippedBlockFail rl rest none (idx + 1)

/-- `lib.rs` `check_advance_rules` (lines 1025-1096): duplicate rule, then
overvote rule, then the two skipped-rank rules, first failure wins. -/
def check_advance_rules (initial_slice : List Choice)
    (duplicate_policy : DuplicateCandidateMode) (overvote : OverVoteRule)
    (skipped_ranks : MaxSkippedRank) : Option AdvanceRuleCheck :=
  if duplicate_policy = DuplicateCandidateMode.Exhaust ∧
      findDuplicate [] initial_slice then
    some AdvanceRuleCheck.DuplicateCandidates
  else if initial_slice.any (fun c => c = Choice.Overvote) ∧
      overvote = OverVoteRule.ExhaustImmediately then
    some AdvanceRuleCheck.FailOvervote
  else if skipped_ranks = MaxSkippedRank.ExhaustOnFirstOccurence ∧
      initial_slice.any (fun c => c = Choice.BlankOrUndervote) then
    some AdvanceRuleCheck.FailSkippedRank
  else
    match skipped_ranks with
    | MaxSkippedRank.MaxAllowed range_len =>
        if skippedBlockFail range_len initial_slice none 0 then
          some AdvanceRuleCheck.FailSkippedRank
        else none
    | _ => none

/-- The `enumerate().find_map` of `advance_voting` (`lib.rs` 1114-1120):
index and id of the first `Filled` choice whose id is still valid. -/
def firstValidFilled (still_valid : List CandidateId) :
    List Choice → Nat → Option (Nat × CandidateId)
  | [], _ => none
  | Choice.Filled cid :: rest, idx =>
      if cid ∈ still_valid then some (idx, cid)
      else firstValidFilled still_valid rest (idx + 1)
  | _ :: rest, idx => firstValidFilled still_valid rest (idx + 1)

/-- `lib.rs` `advance_voting` (lines 1106-1135). -/
def advance_voting (choices : List Choice) (still_valid : List CandidateId)
    (duplicate_policy : DuplicateCandidateMode) (overvote : OverVoteRule)
    (skipped_ranks : MaxSkippedRank) : Option (CandidateId × List Choice) :=
  match firstValidFilled still_valid choices 0 with
  | some (idx, cid) =>
      let initial_slice := choices.take idx
      if (check_advance_rules initial_slice duplicate_policy overvote
            skipped_ranks).isSome then none
      else some (cid, choices.drop (idx + 1))
  | none => none

/-- The `enumerate().find_map` of `advance_voting_initial` (`lib.rs`
1146-1154): index of the first still-valid `Filled` or `Undeclared` choice. -/
def firstValidInitial (still_valid : List CandidateId) :
    List Choice → Nat → Option Nat
  | [], _ => none
  | Choice.Filled cid :: rest, idx =>
      if cid ∈ still_valid then some idx
      else firstValidInitial still_valid rest (idx + 1)
  | Choice.Undeclared :: _, idx => some idx
  | _ :: rest, idx => firstValidInitial still_valid rest (idx + 1)

/-- `lib.rs` `advance_voting_initial` (lines 1138-1170); the returned slice
includes the pivot element. -/
def advance_voting_initial (choices : List Choice) (still_valid : List CandidateId)
    (duplicate_policy : DuplicateCandidateMode) (overvote : OverVoteRule)
    (skipped_ranks : MaxSkippedRank) : Option (List Choice) :=
  match firstValidInitial still_valid choices 0 with
  | some idx =>
      let initial_slice := choices.take idx
      if (check_advance_rules initial_slice duplicate_policy overvote
            skipped_ranks).isSome then none
      else some (choices.drop idx)
  | none => none

/-- `lib.rs` `RankedChoice::filtered_candidate` (lines 134-162). -/
def filtered_candidate (rc : RankedChoice) (still_valid : List CandidateId)
    (duplicate_policy : DuplicateCandidateMode) (overvote : OverVoteRule)
    (skipped_ranks : MaxSkippedRank) : Option RankedChoice :=
  if rc.first_valid ∈ still_valid then some rc
  else
    let all_choices := Choice.Filled rc.first_valid :: rc.rest
    match advance_voting all_choices still_valid duplicate_policy overvote
        skipped_ranks with
    | some (first_valid, rest) => some ⟨first_valid, rest⟩
    | none => none

/-! ## Validator (`lib.rs` `checks`, lines 1181-1303) -/

/-- The per-choice translation loop of `checks` (`lib.rs` 1213-1233).
A choice naming a blacklisted (excluded) candidate hits
`unimplemented!("blacklisted not implemented")`, surfaced as a panic. -/
def translateChoices (blacklisted : List String)
    (candidates : List (String × CandidateId)) :
    List BallotChoice → Except RunError (List Choice)
  | [] => Except.ok []
  | c :: rest =>
    match c with
    | BallotChoice.Candidate name =>
        if name ∈ blacklisted then
          Except.error (RunError.panic "blacklisted not implemented")
        else
          let choice := match hmGet candidates name with
            | some cid => Choice.Filled cid
            | none => Choice.Undeclared
          (translateChoices blacklisted candidates rest).map (fun l => choice :: l)
    | BallotChoice.Blank =>
        (translateChoices blacklisted candidates rest).map
          (fun l => Choice.BlankOrUndervote :: l)
    | BallotChoice.Undervote =>
        (translateChoices blacklisted candidates rest).map
          (fun l => Choice.BlankOrUndervote :: l)
    | BallotChoice.Overvote =>
        (translateChoices blacklisted candidates rest).map
          (fun l => Choice.Overvote :: l)
    | BallotChoice.UndeclaredWriteIn =>
        (translateChoices blacklisted candidates rest).map
          (fun l => Choice.Undeclared :: l)

/-- Accumulator of the main loop of `checks`: validated first-round votes,
UWI-first votes, and the exhausted UWI-first weight. -/
structure ChecksAccum where
  validated_votes : List VoteInternal
  uwi_validated_votes : List VoteInternal
  uwi_exhausted_first_round : Nat
  deriving DecidableEq

/-- One iteration of the ballot loop of `checks` (`lib.rs` 1212-1283). -/
def checksBallot (blacklisted : List String)
    (candidates : List (String × CandidateId)) (valid_cids : List CandidateId)
    (duplicate_candidate_mode : DuplicateCandidateMode)
    (overvote_rule : OverVoteRule) (max_skipped_rank_allowed : MaxSkippedRank)
    (acc : ChecksAccum) (v : Ballot) : Except RunError ChecksAccum :=
  match translateChoices blacklisted candidates v.candidates with
  | Except.error e => Except.error e
  | Except.ok choices =>
    let count := v.count
    match advance_voting_initial choices valid_cids duplicate_candidate_mode
        overvote_rule max_skipped_rank_allowed with
    | some initial_advance =>
      match initial_advance.head? with
      | some (Choice.Filled cid) =>
          Except.ok { acc with validated_votes :=
            acc.validated_votes ++ [⟨⟨cid, initial_advance.tail⟩, count⟩] }
      | some Choice.Undeclared =>
          match advance_voting initial_advance valid_cids
              duplicate_candidate_mode overvote_rule max_skipped_rank_allowed with
          | some (first_cid, rest) =>
              Except.ok { acc with uwi_validated_votes :=
                acc.uwi_validated_votes ++ [⟨⟨first_cid, rest⟩, count⟩] }
          | none =>
              Except.ok { acc with uwi_exhausted_first_round :=
                acc.uwi_exhausted_first_round + count }
      | _ => Except.error (RunError.panic "checks: Should not reach this branch")
    | none => Except.ok acc

/-- Monadic fold over the ballots of `checks`. -/
def checksLoop (blacklisted : List String)
    (candidates : List (String × CandidateId)) (valid_cids : List CandidateId)
    (duplicate_candidate_mode : DuplicateCandidateMode)
    (overvote_rule : OverVoteRule) (max_skipped_rank_allowed : MaxSkippedRank)
    (acc : ChecksAccum) : List Ballot → Except RunError ChecksAccum
  | [] => Except.ok acc
  | v :: rest =>
    match checksBallot blacklisted candidates valid_cids
        duplicate_candidate_mode overvote_rule max_skipped_rank_allowed acc v with
    | Except.error e => Except.error e
    | Except.ok acc2 =>
        checksLoop blacklisted candidates valid_cids duplicate_candidate_mode
          overvote_rule max_skipped_rank_allowed acc2 rest

/-- `lib.rs` `checks` (lines 1181-1303).  The function reads exactly the
`duplicate_candidate_mode`, `overvote_rule` and `max_skipped_rank_allowed`
fields of the rules, which are passed destructured. -/
def checks (coll : List Ballot) (reg_candidates : List Candidate)
    (duplicate_candidate_mode : DuplicateCandidateMode)
    (overvote_rule : OverVoteRule) (max_skipped_rank_allowed : MaxSkippedRank) :
    Except RunError CheckResult :=
  let blacklisted : List String :=
    reg_candidates.filterMap (fun c => if c.excluded then some c.name else none)
  let candidates : List (String × CandidateId) :=
    reg_candidates.enum.map (fun p => (p.2.name, p.1 + 1))
  let valid_cids : List CandidateId := candidates.map (fun p => p.2)
  match checksLoop blacklisted candidates valid_cids duplicate_candidate_mode
      overvote_rule max_skipped_rank_allowed ⟨[], [], 0⟩ coll with
  | Except.error e => Except.error e
  | Except.ok acc =>
    let ordered_candidates : List (String × CandidateId) :=
      reg_candidates.filterMap
        (fun c => (hmGet candidates c.name).map (fun cid => (c.name, cid)))
    Except.ok ⟨acc.validated_votes, ordered_candidates, acc.uwi_validated_votes,
      acc.uwi_exhausted_first_round⟩

/-! ## Spec-side characterization of skipped-rank runs (for claim C9) -/

/-- Number of leading `BlankOrUndervote` entries of a choice list. -/
def leadingBlanks : List Choice → Nat
  | Choice.BlankOrUndervote :: rest => leadingBlanks rest + 1
  | _ => 0

/-- Follows the claim's words: the list contains a maximal contiguous run of
`BlankOrUndervote` entries of length at least `k` (equivalently, some tail
starts with at least `k` blanks). -/
def hasBlankRun (k : Nat) (l : List Choice) : Bool :=
  l.tails.any (fun s => k ≤ leadingBlanks s)

/-! ## Tally and threshold (`lib.rs` `compute_tally`, `get_threshold`) -/

/-- `lib.rs` `compute_tally` (lines 663-677): initialize every candidate of
`candidate_names` at zero, then add each vote's count to the entry of its
`first_valid` candidate when that entry exists. -/
def compute_tally (votes : List VoteInternal)
    (candidate_names : List (String × CandidateId)) : List (CandidateId × Nat) :=
  let init := candidate_names.foldl (fun t p => hmInsertZero t p.2) []
  votes.foldl (fun t v => hmBumpIfPresent t v.candidates.first_valid v.count) init

/-- `lib.rs` `get_threshold` (lines 528-536). -/
def get_threshold (tally : List (CandidateId × Nat)) : Nat :=
  let total_count := (tally.map (fun p => p.2)).sum
  if total_count = 0 then 0 else total_count / 2 + 1

/-! ## Sorting helpers (Rust's stable `sort_by_key` / `sort`) -/

/-- Stable sort by a `Nat` key (Rust `sort_by_key` is stable; Mathlib's
`insertionSort` is stable as well). -/
def sortByKeyNat {α : Type} (key : α → Nat) (l : List α) : List α :=
  l.insertionSort (fun a b => key a ≤ key b)

/-- Stable sort by a `String` key (lexicographic, as Rust's `Ord` on
`String`; on UTF-8 the byte order agrees with the codepoint order). -/
def sortByKeyStr {α : Type} (key : α → String) (l : List α) : List α :=
  l.insertionSort (fun a b => key a ≤ key b)

/-! ## Elimination algorithms (`lib.rs` lines 845-1014) -/

/-- The cumulative loop of `find_eliminated_candidates_batch` (`lib.rs`
877-882): each entry carries its vote count and the cumulative count of the
entries before it, starting from `acc`. -/
def cumTriples (acc : Nat) : List (CandidateId × Nat) →
    List (CandidateId × Nat × Nat)
  | [] => []
  | p :: rest => (p.1, p.2, acc) :: cumTriples (acc + p.2) rest

/-- `lib.rs` `find_eliminated_candidates_batch` (lines 868-910). -/
def find_eliminated_candidates_batch (tally : List (CandidateId × Nat)) :
    Option (List CandidateId) :=
  let sorted_tally := sortByKeyNat (fun p => p.2) tally
  let sorted_tally_cum := cumTriples 0 sorted_tally
  let large_gap_idx :=
    (sorted_tally_cum.enum.filter (fun q => q.2.2.2 < q.2.2.1)).getLast?
  match large_gap_idx with
  | some (idx, _) =>
      if idx > 0 then some ((sorted_tally.map (fun p => p.1)).take idx)
      else none
  | none => none

/-- Follows the claim's words for batch elimination: sort ascending by tally,
let `prev_cum k` be the sum of the first `k` sorted tallies, find the largest
`k` with `prev_cum k < tally(k)` strictly, and eliminate the first `k`
candidates when `k > 0`. -/
def batchEliminationSpec (tally : List (CandidateId × Nat)) :
    Option (List CandidateId) :=
  let sorted := sortByKeyNat (fun p => p.2) tally
  let counts := sorted.map (fun p => p.2)
  let gaps := (List.range sorted.length).filter
    (fun k => (counts.take k).sum < counts.getD k 0)
  match gaps.getLast? with
  | some k => if k > 0 then some ((sorted.map (fun p => p.1)).take k) else none
  | none => none

/-- `tally.values().min()` of `find_eliminated_candidates_single`
(`lib.rs` 942); the source unwraps under a nonemptiness guard, the empty
case here returns 0 and is never reached by the function below. -/
def minCount (tally : List (CandidateId × Nat)) : Nat :=
  match tally.map (fun p => p.2) with
  | [] => 0
  | v :: vs => vs.foldl Nat.min v

/-- The `all_smallest` list of `find_eliminated_candidates_single`
(`lib.rs` 944-948): candidates whose count is at most the minimum, in tally
order. -/
def allSmallest (tally : List (CandidateId × Nat)) : List CandidateId :=
  tally.filterMap (fun p => if p.2 ≤ minCount tally then some p.1 else none)

/-- The `candidate_order` map of the `UseCandidateOrder` branch (`lib.rs`
963-969): position of a candidate in the declared order (on duplicate ids the
last position wins, as for `HashMap::collect`).  The source unwraps the
lookup; the default 0 is outside the domain used by the theorems. -/
def candidateOrderKey (candidate_names : List (String × CandidateId))
    (cid : CandidateId) : Nat :=
  (hmGet (candidate_names.enum.map (fun p => (p.2.2, p.1))) cid).getD 0

/-- The name lookup of the `Random` branch (`lib.rs` 976-990): first declared
entry with this id (the source unwraps; "" is outside the used domain). -/
def lookupFirstName (candidate_names : List (String × CandidateId))
    (cid : CandidateId) : String :=
  ((candidate_names.find? (fun p => p.2 = cid)).map (fun p => p.1)).getD ""

/-- Zero-padded 8-wide decimal rendering, Rust's `format!("{:08}", n)`. -/
def pad8 (n : Nat) : String :=
  let s := toString n
  String.mk (List.replicate (8 - s.length) '0') ++ s

/-- `lib.rs` `candidate_permutation_crypto` (lines 1307-1318). -/
def candidate_permutation_crypto (candidates : List (CandidateId × String))
    (seed : Nat) (num_round : Nat) : List CandidateId :=
  let data := candidates.map
    (fun p => (p.1, pad8 seed ++ pad8 num_round ++ p.2))
  (sortByKeyStr (fun p => p.2) data).map (fun p => p.1)

/-- `lib.rs` `find_eliminated_candidates_single` (lines 920-1014). -/
def find_eliminated_candidates_single (tally : List (CandidateId × Nat))
    (tiebreak : TieBreakMode) (candidate_names : List (String × CandidateId))
    (num_round : Nat) : Option (List CandidateId × TiebreakSituation) :=
  match tally with
  | [] => none
  | [_] => none
  | _ :: _ :: _ =>
    let all_smallest := allSmallest tally
    if all_smallest.length = 1 then
      some (all_smallest, TiebreakSituation.Clean)
    else
      let sorted_candidates : List CandidateId :=
        match tiebreak with
        | TieBreakMode.UseCandidateOrder =>
            (sortByKeyNat (candidateOrderKey candidate_names) all_smallest).reverse
        | TieBreakMode.Random seed =>
            candidate_permutation_crypto
              (all_smallest.map (fun cid => (cid, lookupFirstName candidate_names cid)))
              seed num_round
      let sc := sorted_candidates
      let truncated := sorted_candidates.take 1
      let final :=
        if sc.length = tally.length then
          match sc.getLast? with
          | some last => truncated.filter (fun cid => cid ≠ last)
          | none => truncated
        else truncated
      some (final, TiebreakSituation.TiebreakOccured)

/-- `lib.rs` `find_eliminated_candidates` (lines 845-866): try batch when the
algorithm is `Batch`, then single-candidate elimination, otherwise fail with
`EmptyElection`.  The function reads exactly the `elimination_algorithm` and
`tiebreak_mode` fields of the rules, which are passed destructured. -/
def find_eliminated_candidates (tally : List (CandidateId × Nat))
    (elimination_algorithm : EliminationAlgorithm) (tiebreak_mode : TieBreakMode)
    (candidate_names : List (String × CandidateId)) (num_round : Nat) :
    Except VotingErrors (List CandidateId × TiebreakSituation) :=
  let batch_res :=
    if elimination_algorithm = EliminationAlgorithm.Batch then
      find_eliminated_candidates_batch tally
    else none
  match batch_res with
  | some v => Except.ok (v, TiebreakSituation.Clean)
  | none =>
    match find_eliminated_candidates_single tally tiebreak_mode
        candidate_names num_round with
    | some (v, tb) => Except.ok (v, tb)
    | none => Except.error VotingErrors.EmptyElection

/-! ## Round executor (`lib.rs` `run_one_round`, lines 680-843) -/

/-- Per-eliminated-candidate bookkeeping of `run_one_round`: transfers to
other candidates and the exhausted weight (`elimination_stats`). -/
abbrev ElimStats := List (CandidateId × (List (CandidateId × Nat) × Nat))

/-- `elimination_stats.entry(cid).or_insert(..); e.1 += c` (`lib.rs` 760-765):
record exhausted weight against `cid`. -/
def statsAddExhaust (stats : ElimStats) (cid : CandidateId) (c : Nat) :
    ElimStats :=
  if stats.any (fun q => q.1 = cid) then
    stats.map (fun q => if q.1 = cid then (q.1, (q.2.1, q.2.2 + c)) else q)
  else stats ++ [(cid, ([], c))]

/-- `elimination_stats.entry(cid).or_insert(..); e.0.entry(nf).or_insert(0) += c`
(`lib.rs` 766-773): record a transfer from `cid` to `nf`. -/
def statsAddTransfer (stats : ElimStats) (cid nf : CandidateId) (c : Nat) :
    ElimStats :=
  if stats.any (fun q => q.1 = cid) then
    stats.map (fun q =>
      if q.1 = cid then (q.1, (bumpAssoc q.2.1 nf c, q.2.2)) else q)
  else stats ++ [(cid, (bumpAssoc [] nf c, 0))]

/-- One step of the vote-transfer `filter_map` of `run_one_round`
(`lib.rs` 745-784), with the statistics side effects made explicit in the
accumulator. -/
def transferStep (remaining_candidates : List CandidateId)
    (duplicate_candidate_mode : DuplicateCandidateMode)
    (overvote_rule : OverVoteRule) (max_skipped_rank_allowed : MaxSkippedRank)
    (acc : List VoteInternal × ElimStats) (va : VoteInternal) :
    List VoteInternal × ElimStats :=
  let new_rank := filtered_candidate va.candidates remaining_candidates
    duplicate_candidate_mode overvote_rule max_skipped_rank_allowed
  let old_first := va.candidates.first_valid
  let new_first := new_rank.map (fun nr => nr.first_valid)
  let stats2 :=
    match new_first with
    | none => statsAddExhaust acc.2 old_first va.count
    | some new_first_cid =>
        if new_first_cid ≠ old_first then
          statsAddTransfer acc.2 old_first new_first_cid va.count
        else acc.2
  let votes2 :=
    match new_rank with
    | some rc => acc.1 ++ [⟨rc, va.count⟩]
    | none => acc.1
  (votes2, stats2)

/-- The final statistics loop of `run_one_round` (`lib.rs` 815-833): each
tallied candidate is `Eliminated` when it has elimination statistics,
`Elected` when among the winners, and `StillRunning` otherwise. -/
def buildCandidateStats (tally : List (CandidateId × Nat))
    (elimination_stats : ElimStats) (winners : List CandidateId) :
    List (CandidateId × Nat × RoundCandidateStatusInternal) :=
  tally.map (fun p =>
    match hmGet elimination_stats p.1 with
    | some (transfers, exhaust) =>
        (p.1, p.2, RoundCandidateStatusInternal.Eliminated transfers exhaust)
    | none =>
        if p.1 ∈ winners then
          (p.1, p.2, RoundCandidateStatusInternal.Elected)
        else (p.1, p.2, RoundCandidateStatusInternal.StillRunning))

/-- `lib.rs` `run_one_round` (lines 680-843).  The function reads exactly the
`elimination_algorithm`, `tiebreak_mode` (through
`find_eliminated_candidates`), `duplicate_candidate_mode`, `overvote_rule`
and `max_skipped_rank_allowed` fields of the rules, which are passed
destructured.  The two `assert!` statements of the caller are not part of
this function. -/
def run_one_round (votes : List VoteInternal)
    (elimination_algorithm : EliminationAlgorithm) (tiebreak_mode : TieBreakMode)
    (duplicate_candidate_mode : DuplicateCandidateMode)
    (overvote_rule : OverVoteRule) (max_skipped_rank_allowed : MaxSkippedRank)
    (candidate_names : List (String × CandidateId)) (num_round : Nat) :
    Except RunError RoundResult :=
  let tally := compute_tally votes candidate_names
  let vote_threshold := get_threshold tally
  if tally.length = 1 then
    Except.ok ⟨votes,
      ⟨tally.map (fun p => (p.1, p.2, RoundCandidateStatusInternal.Elected)),
        some ([], 0)⟩,
      vote_threshold⟩
  else
    match find_eliminated_candidates tally elimination_algorithm tiebreak_mode
        candidate_names num_round with
    | Except.error e => Except.error (RunError.err e)
    | Except.ok (eliminated_candidates, resolved_tiebreak) =>
      if eliminated_candidates.isEmpty then
        Except.error (RunError.err VotingErrors.NoCandidateToEliminate)
      else
        let init_stats : ElimStats :=
          eliminated_candidates.map (fun cid => (cid, ([], 0)))
        let remaining_candidates : List CandidateId :=
          candidate_names.filterMap
            (fun p => if p.2 ∈ eliminated_candidates then none else some p.2)
        let step := votes.foldl
          (transferStep remaining_candidates duplicate_candidate_mode
            overvote_rule max_skipped_rank_allowed) ([], init_stats)
        let rem_votes := step.1
        let elimination_stats := step.2
        let remainers := tally.filter (fun p => p.1 ∉ eliminated_candidates)
        let winners : List CandidateId :=
          if resolved_tiebreak = TiebreakSituation.Clean then
            remainers.filterMap
              (fun p => if vote_threshold ≤ p.2 then some p.1 else none)
          else []
        let candidate_stats := buildCandidateStats tally elimination_stats winners
        Except.ok ⟨rem_votes, ⟨candidate_stats, none⟩, vote_threshold⟩

/-- `lib.rs` `run_first_round_uwi` (lines 624-661); the source always returns
`Ok`, so the embedding is a plain function. -/
def run_first_round_uwi (votes : List VoteInternal)
    (uwi_first_votes : List VoteInternal) (uwi_first_exhausted : Nat)
    (candidate_names : List (String × CandidateId)) : RoundResult :=
  let tally := compute_tally votes candidate_names
  let elimination_stats := uwi_first_votes.foldl
    (fun m v => bumpAssoc m v.candidates.first_valid v.count) []
  ⟨votes ++ uwi_first_votes,
    ⟨tally.map (fun p => (p.1, p.2, RoundCandidateStatusInternal.StillRunning)),
      some (elimination_stats, uwi_first_exhausted)⟩,
    0⟩

/-! ## Statistics emission (`lib.rs` `round_result_to_stat` and friends,
lines 538-622) -/

/-- The transfer-renaming loops of `round_result_to_stat` (`lib.rs` 577-583
and 604-610): each candidate id is renamed through `candidates_by_id`, a
missing id yielding `EmptyElection` (`ok_or`). -/
def transferNames (candidates_by_id : List (CandidateId × String)) :
    List (CandidateId × Nat) → Except RunError (List (String × Nat))
  | [] => Except.ok []
  | (cid, c) :: rest =>
    match hmGet candidates_by_id cid with
    | none => Except.error (RunError.err VotingErrors.EmptyElection)
    | some name => (transferNames candidates_by_id rest).map (fun l => (name, c) :: l)

/-- The candidate loop of `round_result_to_stat` (`lib.rs` 562-594),
accumulating into the public `RoundStats`. -/
def statEntryLoop (candidates_by_id : List (CandidateId × String)) :
    List (CandidateId × Nat × RoundCandidateStatusInternal) → RoundStats →
    Except RunError RoundStats
  | [], rs => Except.ok rs
  | (cid, c, status) :: rest, rs =>
    match hmGet candidates_by_id cid with
    | none => Except.error (RunError.err VotingErrors.EmptyElection)
    | some name =>
      let rs1 := { rs with tally := rs.tally ++ [(name, c)] }
      match status with
      | RoundCandidateStatusInternal.StillRunning =>
          statEntryLoop candidates_by_id rest rs1
      | RoundCandidateStatusInternal.Elected =>
          statEntryLoop candidates_by_id rest
            { rs1 with tally_results_elected := rs1.tally_results_elected ++ [name] }
      | RoundCandidateStatusInternal.Eliminated transfers exhausts =>
          if ¬ transfers.isEmpty ∨ 0 < exhausts then
            match transferNames candidates_by_id transfers with
            | Except.error e => Except.error e
            | Except.ok pub_transfers =>
                statEntryLoop candidates_by_id rest
                  { rs1 with tally_result_eliminated :=
                      rs1.tally_result_eliminated ++ [⟨name, pub_transfers, exhausts⟩] }
          else statEntryLoop candidates_by_id rest rs1

/-- `lib.rs` `round_result_to_stat` (lines 550-622). -/
def round_result_to_stat (stats : RoundStatistics) (round_id : Nat)
    (candidates_by_id : List (CandidateId × String)) :
    Except RunError RoundStats :=
  match statEntryLoop candidates_by_id stats.candidate_stats
      ⟨round_id, [], [], []⟩ with
  | Except.error e => Except.error e
  | Except.ok rs0 =>
    let uwi := "Undeclared Write-ins"
    match stats.uwi_elimination_stats with
    | none =>
        Except.ok { rs0 with
          tally_result_eliminated :=
            sortByKeyStr (fun es => es.name) rs0.tally_result_eliminated,
          tally_results_elected :=
            sortByKeyStr (fun s => s) rs0.tally_results_elected }
    | some (uwi_transfers, uwi_exhauster) =>
        let uwi_tally := (uwi_transfers.map (fun p => p.2)).sum + uwi_exhauster
        let rs1 :=
          if 0 < uwi_tally then { rs0 with tally := rs0.tally ++ [(uwi, uwi_tally)] }
          else rs0
        match transferNames candidates_by_id uwi_transfers with
        | Except.error e => Except.error e
        | Except.ok pub_transfers =>
            let rs2 := { rs1 with tally_result_eliminated :=
              rs1.tally_result_eliminated ++
                [EliminationStats.mk uwi pub_transfers uwi_exhauster] }
            Except.ok { rs2 with
              tally_result_eliminated :=
                sortByKeyStr (fun es => es.name) rs2.tally_result_eliminated,
              tally_results_elected :=
                sortByKeyStr (fun s => s) rs2.tally_results_elected }

/-- `lib.rs` `round_results_to_stats` (lines 538-548), with the 1-indexed
round ids produced by `idx`. -/
def round_results_to_stats_loop (candidates_by_id : List (CandidateId × String))
    (idx : Nat) : List RoundStatistics → Except RunError (List RoundStats)
  | [] => Except.ok []
  | r :: rest =>
    match round_result_to_stat r (idx + 1) candidates_by_id with
    | Except.error e => Except.error e
    | Except.ok rs =>
        (round_results_to_stats_loop candidates_by_id (idx + 1) rest).map
          (fun l => rs :: l)

/-- `lib.rs` `round_results_to_stats` entry point. -/
def round_results_to_stats (results : List RoundStatistics)
    (candidates_by_id : List (CandidateId × String)) :
    Except RunError (List RoundStats) :=
  round_results_to_stats_loop candidates_by_id 0 results

/-! ## Driver (`lib.rs` `run_voting_stats`, lines 341-478) -/

/-- The winner-renaming loop of `run_voting_stats` (`lib.rs` 466-469); the
source unwraps the lookup, surfaced here as a panic. -/
def winnerNames (candidates_by_id : List (CandidateId × String)) :
    List CandidateId → Except RunError (List String)
  | [] => Except.ok []
  | cid :: rest =>
    match hmGet candidates_by_id cid with
    | none => Except.error (RunError.panic "called Option unwrap on a None value")
    | some name => (winnerNames candidates_by_id rest).map (fun l => name :: l)

/-- True when the candidate is `Eliminated` in the given statistics list
(the `is_eliminated` check of `lib.rs` 432-434). -/
def isEliminatedIn (stats : List (CandidateId × Nat × RoundCandidateStatusInternal))
    (cid : CandidateId) : Bool :=
  stats.any (fun q =>
    (match q.2.2 with
     | RoundCandidateStatusInternal.Eliminated _ _ => true
     | _ => false) && (q.1 = cid))

/-- The `while` loop of `run_voting_stats` (`lib.rs` 391-476), with the
iteration cap `while cur_stats.len() < 10000` expressed as fuel
(one unit per recorded round); running out yields `NoConvergence`
(`lib.rs` 477).  The two `assert!` invariant checks of the source
(lines 444-449, 456) are invariants, not part of the computed value.
The loop reads exactly the five rule fields passed here. -/
def votingLoop (elimination_algorithm : EliminationAlgorithm)
    (tiebreak_mode : TieBreakMode)
    (duplicate_candidate_mode : DuplicateCandidateMode)
    (overvote_rule : OverVoteRule) (max_skipped_rank_allowed : MaxSkippedRank)
    (uwi_first_votes : List VoteInternal) (uwi_first_exhausted : Nat)
    (candidates_by_id : List (CandidateId × String)) :
    Nat → List VoteInternal → List (String × CandidateId) →
    List RoundStatistics → Except RunError VotingResult
  | 0, _, _, _ => Except.error (RunError.err VotingErrors.NoConvergence)
  | fuel + 1, cur_votes, cur_sorted_candidates, cur_stats =>
    let round_id := cur_stats.length + 1
    let has_initial_uwis := cur_stats.isEmpty ∧
      (¬ uwi_first_votes.isEmpty ∨ 0 < uwi_first_exhausted)
    let round_res_e : Except RunError RoundResult :=
      if has_initial_uwis then
        Except.ok (run_first_round_uwi cur_votes uwi_first_votes
          uwi_first_exhausted cur_sorted_candidates)
      else
        run_one_round cur_votes elimination_algorithm tiebreak_mode
          duplicate_candidate_mode overvote_rule max_skipped_rank_allowed
          cur_sorted_candidates round_id
    match round_res_e with
    | Except.error e => Except.error e
    | Except.ok round_res =>
      let stats := round_res.stats.candidate_stats
      let survivors := cur_sorted_candidates.filter
        (fun p => ¬ isEliminatedIn stats p.2)
      let winners : List CandidateId := stats.filterMap
        (fun q => match q.2.2 with
          | RoundCandidateStatusInternal.Elected => some q.1
          | _ => none)
      let cur_stats2 := cur_stats ++ [round_res.stats]
      if ¬ winners.isEmpty then
        match round_results_to_stats cur_stats2 candidates_by_id with
        | Except.error e => Except.error e
        | Except.ok pub_stats =>
          match winnerNames candidates_by_id winners with
          | Except.error e => Except.error e
          | Except.ok winner_names =>
              Except.ok ⟨some winner_names, round_res.vote_threshold, pub_stats⟩
      else
        votingLoop elimination_algorithm tiebreak_mode duplicate_candidate_mode
          overvote_rule max_skipped_rank_allowed uwi_first_votes
          uwi_first_exhausted candidates_by_id fuel round_res.votes survivors
          cur_stats2

/-- `lib.rs` `candidates_from_ballots` (lines 312-332): the set of names
appearing in `Candidate` choices, sorted, none excluded. -/
def candidates_from_ballots (ballots : List Ballot) : List Candidate :=
  let cand_set := ballots.foldl
    (fun s b => b.candidates.foldl
      (fun s c => match c with
        | BallotChoice.Candidate name => if name ∈ s then s else s ++ [name]
        | _ => s) s) []
  (sortByKeyStr (fun n => n) cand_set).map (fun n => ⟨n, none, false⟩)

/-- `lib.rs` `run_voting_stats` (lines 341-478): validate the ballots, then
iterate rounds (cap 10000) until winners are found.  The rules record is
destructured here once; the `minimum_vote_threshold`, `max_rankings_allowed`,
`winner_election_mode` and `number_of_winners` fields are never read by the
engine (underscore binders, as a plain reading of the source shows). -/
def run_voting_stats (coll : List Ballot) (rules : VoteRules)
    (candidates_o : Option (List Candidate)) : Except RunError VotingResult :=
  match rules with
  | ⟨tiebreak_mode, overvote_rule, _winner_election_mode, _number_of_winners,
      _minimum_vote_threshold, max_skipped_rank_allowed, _max_rankings_allowed,
      elimination_algorithm, duplicate_candidate_mode⟩ =>
    let candidates := candidates_o.getD (candidates_from_ballots coll)
    match checks coll candidates duplicate_candidate_mode overvote_rule
        max_skipped_rank_allowed with
    | Except.error e => Except.error e
    | Except.ok cr =>
      let all_candidates := cr.candidates
      let candidates_by_id : List (CandidateId × String) :=
        all_candidates.map (fun p => (p.2, p.1))
      votingLoop elimination_algorithm tiebreak_mode duplicate_candidate_mode
        overvote_rule max_skipped_rank_allowed cr.uwi_first_votes
        cr.count_exhausted_uwi_first_round candidates_by_id 10000 cr.votes
        all_candidates []

/-- Follows the claim's words for `max_rankings_allowed = Some n`: truncate a
ballot's choice list to its first `n` entries. -/
def truncateBallot (n : Nat) (b : Ballot) : Ballot :=
  ⟨b.candidates.take n, b.count⟩

/-- Decidable equality for `Except`, used to evaluate the engine's results
on concrete inputs. -/
instance {ε α : Type} [DecidableEq ε] [DecidableEq α] : DecidableEq (Except ε α) :=
  fun a b =>
    match a, b with
    | Except.error e, Except.error f =>
        if h : e = f then Decidable.isTrue (by rw [h])
        else Decidable.isFalse (fun hh => h (by injection hh))
    | Except.ok x, Except.ok y =>
        if h : x = y then Decidable.isTrue (by rw [h])
        else Decidable.isFalse (fun hh => h (by injection hh))
    | Except.error _, Except.ok _ => Decidable.isFalse (fun hh => by injection hh)
    | Except.ok _, Except.error _ => Decidable.isFalse (fun hh => by injection hh)

/-! ## Helper lemmas -/

theorem anyKey_iff (m : List (CandidateId × Nat)) (k : CandidateId) :
    (m.any fun q => q.1 = k) = true ↔ k ∈ m.map (fun q => q.1) := by
  simp [List.any_eq_true, List.mem_map]

theorem map_preserve_keys {f : CandidateId × Nat → CandidateId × Nat}
    (hf : ∀ q, (f q).1 = q.1) (m : List (CandidateId × Nat)) :
    (m.map f).map (fun q => q.1) = m.map (fun q => q.1) := by
  rw [List.map_map]
  exact List.map_congr_left (fun q _ => hf q)

theorem hmBumpIfPresent_keys (m : List (CandidateId × Nat)) (k : CandidateId)
    (c : Nat) :
    (hmBumpIfPresent m k c).map (fun q => q.1) = m.map (fun q => q.1) := by
  unfold hmBumpIfPresent
  split
  · exact map_preserve_keys (fun q => by by_cases h : q.1 = k <;> simp [h]) m
  · rfl

theorem hmBumpIfPresent_zero (m : List (CandidateId × Nat)) (k : CandidateId) :
    hmBumpIfPresent m k 0 = m := by
  unfold hmBumpIfPresent
  split
  · have h : ∀ q ∈ m, (if q.1 = k then (q.1, q.2 + 0) else q) = q := by
      intro q _
      split <;> rfl
    exact (List.map_congr_left h).trans (List.map_id _)
  · rfl

theorem map_bump_not_mem (m : List (CandidateId × Nat)) (k : CandidateId) (c : Nat)
    (h : k ∉ m.map (fun q => q.1)) :
    m.map (fun q => if q.1 = k then (q.1, q.2 + c) else q) = m := by
  have h2 : ∀ q ∈ m, (if q.1 = k then (q.1, q.2 + c) else q) = q := by
    intro q hq
    rw [if_neg (fun he => h (List.mem_map.mpr ⟨q, hq, he⟩))]
  exact (List.map_congr_left h2).trans (List.map_id _)

theorem hmBumpIfPresent_sum (m : List (CandidateId × Nat)) (k : CandidateId)
    (c : Nat) (hn : (m.map (fun q => q.1)).Nodup)
    (h : k ∈ m.map (fun q => q.1)) :
    ((hmBumpIfPresent m k c).map (fun q => q.2)).sum
      = (m.map (fun q => q.2)).sum + c := by
  induction m with
  | nil => simp at h
  | cons q rest ih =>
    have hany : ((q :: rest).any fun p => p.1 = k) = true := (anyKey_iff _ k).mpr h
    have h0 : k = q.1 ∨ k ∈ rest.map (fun p => p.1) := by
      rw [List.map_cons] at h
      exact List.mem_cons.mp h
    rw [List.map_cons] at hn
    unfold hmBumpIfPresent
    rw [if_pos hany]
    by_cases hq : q.1 = k
    · have hkrest : k ∉ rest.map (fun p => p.1) := by
        rw [← hq]
        exact (List.nodup_cons.mp hn).1
      simp only [List.map_cons, if_pos hq, List.sum_cons]
      rw [map_bump_not_mem rest k c hkrest]
      omega
    · have hkrest : k ∈ rest.map (fun p => p.1) := by
        rcases h0 with heq | hmem
        · exact absurd heq.symm hq
        · exact hmem
      have hanyrest : (rest.any fun p => p.1 = k) = true := (anyKey_iff _ _).mpr hkrest
      have ihr := ih (List.nodup_cons.mp hn).2 hkrest
      unfold hmBumpIfPresent at ihr
      rw [if_pos hanyrest] at ihr
      simp only [List.map_cons, if_neg hq, List.sum_cons]
      omega

theorem hmInsertZero_keys_mem (m : List (CandidateId × Nat)) (k k0 : CandidateId) :
    k0 ∈ (hmInsertZero m k).map (fun q => q.1) ↔
      k0 ∈ m.map (fun q => q.1) ∨ k0 = k := by
  unfold hmInsertZero
  split
  · rename_i hany
    have hk : k ∈ m.map (fun q => q.1) := (anyKey_iff m k).mp hany
    rw [map_preserve_keys (fun q => by by_cases h : q.1 = k <;> simp [h]) m]
    constructor
    · exact fun h => Or.inl h
    · rintro (h | rfl)
      · exact h
      · exact hk
  · rw [List.map_append]
    simp [List.mem_append]

theorem hmInsertZero_vals_zero (m : List (CandidateId × Nat)) (k : CandidateId)
    (h : ∀ q ∈ m, q.2 = 0) : ∀ q ∈ hmInsertZero m k, q.2 = 0 := by
  unfold hmInsertZero
  split
  · intro q hq
    rcases List.mem_map.mp hq with ⟨p, hp, hfp⟩
    by_cases hpk : p.1 = k
    · rw [← hfp, if_pos hpk]
    · rw [← hfp, if_neg hpk]
      exact h p hp
  · intro q hq
    rcases List.mem_append.mp hq with hq1 | hq2
    · exact h q hq1
    · rw [List.mem_singleton.mp hq2]

theorem hmInsertZero_keys_nodup (m : List (CandidateId × Nat)) (k : CandidateId)
    (h : (m.map (fun q => q.1)).Nodup) :
    ((hmInsertZero m k).map (fun q => q.1)).Nodup := by
  unfold hmInsertZero
  split
  · rw [map_preserve_keys (fun q => by by_cases hh : q.1 = k <;> simp [hh]) m]
    exact h
  · rename_i hany
    have hk : k ∉ m.map (fun q => q.1) := fun hm => by
      rw [(anyKey_iff m k).mpr hm] at hany
      exact hany rfl
    rw [List.map_append]
    refine List.Nodup.append h (List.nodup_singleton k) ?_
    intro a ha hb
    rw [List.mem_singleton.mp hb] at ha
    exact hk ha

theorem foldl_insertZero_keys_mem (names : List (String × CandidateId)) :
    ∀ (acc : List (CandidateId × Nat)) (k0 : CandidateId),
      k0 ∈ ((names.foldl (fun t p => hmInsertZero t p.2) acc).map (fun q => q.1)) ↔
        k0 ∈ acc.map (fun q => q.1) ∨ k0 ∈ names.map (fun p => p.2) := by
  induction names with
  | nil => intro acc k0; simp
  | cons p rest ih =>
    intro acc k0
    rw [List.foldl_cons, ih (hmInsertZero acc p.2) k0, hmInsertZero_keys_mem]
    rw [List.map_cons, List.mem_cons]
    tauto

theorem foldl_insertZero_vals_zero (names : List (String × CandidateId)) :
    ∀ (acc : List (CandidateId × Nat)), (∀ q ∈ acc, q.2 = 0) →
      ∀ q ∈ names.foldl (fun t p => hmInsertZero t p.2) acc, q.2 = 0 := by
  induction names with
  | nil => intro acc h; exact h
  | cons p rest ih =>
    intro acc h
    exact ih (hmInsertZero acc p.2) (hmInsertZero_vals_zero acc p.2 h)

theorem foldl_insertZero_keys_nodup (names : List (String × CandidateId)) :
    ∀ (acc : List (CandidateId × Nat)), ((acc.map (fun q => q.1)).Nodup) →
      (((names.foldl (fun t p => hmInsertZero t p.2) acc).map (fun q => q.1)).Nodup) := by
  induction names with
  | nil => intro acc h; exact h
  | cons p rest ih =>
    intro acc h
    exact ih (hmInsertZero acc p.2) (hmInsertZero_keys_nodup acc p.2 h)

theorem foldl_bump_sum (votes : List VoteInternal) :
    ∀ (t : List (CandidateId × Nat)), (t.map (fun q => q.1)).Nodup →
      (∀ v ∈ votes, v.candidates.first_valid ∈ t.map (fun q => q.1)) →
      ((votes.foldl (fun t v => hmBumpIfPresent t v.candidates.first_valid v.count) t).map
        (fun q => q.2)).sum
        = (t.map (fun q => q.2)).sum + (votes.map (fun v => v.count)).sum := by
  induction votes with
  | nil => intro t _ _; simp
  | cons v rest ih =>
    intro t hn hmem
    rw [List.foldl_cons]
    rw [ih (hmBumpIfPresent t v.candidates.first_valid v.count)
      (by rw [hmBumpIfPresent_keys]; exact hn)
      (fun w hw => by
        rw [hmBumpIfPresent_keys]
        exact hmem w (List.mem_cons_of_mem v hw))]
    rw [hmBumpIfPresent_sum t _ _ hn (hmem v (List.mem_cons_self v rest))]
    rw [List.map_cons, List.sum_cons]
    omega

/-- The total of a tally computed by `compute_tally` is the total weight of
the votes, provided every vote's head candidate is among the candidate
names (as the `checks` invariant guarantees). -/
theorem compute_tally_sum (votes : List VoteInternal)
    (candidate_names : List (String × CandidateId))
    (h : ∀ v ∈ votes, v.candidates.first_valid ∈ candidate_names.map (fun p => p.2)) :
    ((compute_tally votes candidate_names).map (fun q => q.2)).sum
      = (votes.map (fun v => v.count)).sum := by
  unfold compute_tally
  rw [foldl_bump_sum votes (candidate_names.foldl (fun t p => hmInsertZero t p.2) [])
    (foldl_insertZero_keys_nodup candidate_names [] (by simp))
    (fun v hv => by
      rw [foldl_insertZero_keys_mem candidate_names [] v.candidates.first_valid]
      exact Or.inr (h v hv))]
  have hz : ∀ q ∈ candidate_names.foldl (fun t p => hmInsertZero t p.2)
      ([] : List (CandidateId × Nat)), q.2 = 0 :=
    foldl_insertZero_vals_zero candidate_names [] (by intro q hq; cases hq)
  have hzs : ((candidate_names.foldl (fun t p => hmInsertZero t p.2)
      ([] : List (CandidateId × Nat))).map (fun q => q.2)).sum = 0 := by
    apply List.sum_eq_zero
    intro x hx
    rcases List.mem_map.mp hx with ⟨q, hq, hqx⟩
    rw [← hqx]
    exact hz q hq
  rw [hzs]
  omega

theorem batch_singleton_none (p : CandidateId × Nat) :
    find_eliminated_candidates_batch [p] = none := by
  rcases p with ⟨cid, v⟩
  cases v with
  | zero => rfl
  | succ n =>
      simp [find_eliminated_candidates_batch, sortByKeyNat, cumTriples,
        List.insertionSort, List.orderedInsert]

/-- When neither elimination algorithm produces a candidate,
`find_eliminated_candidates` returns `EmptyElection` (`lib.rs` 863-865). -/
theorem find_neither_empty_election (tally : List (CandidateId × Nat))
    (alg : EliminationAlgorithm) (tb : TieBreakMode)
    (candidate_names : List (String × CandidateId)) (num_round : Nat)
    (hb : find_eliminated_candidates_batch tally = none)
    (hs : find_eliminated_candidates_single tally tb candidate_names num_round = none) :
    find_eliminated_candidates tally alg tb candidate_names num_round
      = Except.error VotingErrors.EmptyElection := by
  unfold find_eliminated_candidates
  cases alg <;> simp [hb, hs]

theorem find_singleton_error (p : CandidateId × Nat) (alg : EliminationAlgorithm)
    (tb : TieBreakMode) (candidate_names : List (String × CandidateId))
    (num_round : Nat) :
    find_eliminated_candidates [p] alg tb candidate_names num_round
      = Except.error VotingErrors.EmptyElection :=
  find_neither_empty_election [p] alg tb candidate_names num_round
    (batch_singleton_none p) rfl

/-- With an empty winner list, every entry built by `buildCandidateStats` is
`StillRunning` or `Eliminated`, never `Elected`. -/
theorem buildCandidateStats_no_winners
    (tally : List (CandidateId × Nat)) (es : ElimStats) :
    ∀ q ∈ buildCandidateStats tally es [],
      q.2.2 ≠ RoundCandidateStatusInternal.Elected ∧
      (q.2.2 = RoundCandidateStatusInternal.StillRunning ∨
        ∃ t e, q.2.2 = RoundCandidateStatusInternal.Eliminated t e) := by
  intro q hq
  rcases List.mem_map.mp hq with ⟨p, _, hfp⟩
  rw [← hfp]
  cases hget : hmGet es p.1 with
  | some pr =>
      rcases pr with ⟨t, e⟩
      simp [hget]
  | none => simp [hget]

theorem key_le_getLast {α : Type} (key : α → Nat) :
    ∀ (l : List α), l.Sorted (fun a b => key a ≤ key b) →
      ∀ (h : l ≠ []) (a : α), a ∈ l → key a ≤ key (l.getLast h) := by
  intro l
  induction l with
  | nil => intro _ h; exact absurd rfl h
  | cons x t ih =>
    intro hsort h a ha
    cases t with
    | nil =>
        rcases List.mem_singleton.mp ha with rfl
        exact Nat.le_refl _
    | cons y t2 =>
        have hne2 : y :: t2 ≠ [] := by simp
        rw [List.getLast_cons hne2]
        rcases List.sorted_cons.mp hsort with ⟨hx, hsort2⟩
        rcases List.mem_cons.mp ha with rfl | hmem
        · exact hx _ (List.getLast_mem hne2)
        · exact ih hsort2 hne2 a hmem

theorem reverse_take_one {α : Type} (l : List α) (h : l ≠ []) :
    l.reverse.take 1 = [l.getLast h] := by
  conv_lhs => rw [← List.dropLast_append_getLast h]
  rw [List.reverse_append]
  rfl

theorem sortByKeyNat_sorted {α : Type} (key : α → Nat) (l : List α) :
    (sortByKeyNat key l).Sorted (fun a b => key a ≤ key b) := by
  haveI : IsTotal α (fun a b => key a ≤ key b) := ⟨fun a b => Nat.le_total _ _⟩
  haveI : IsTrans α (fun a b => key a ≤ key b) :=
    ⟨fun _ _ _ hab hbc => Nat.le_trans hab hbc⟩
  exact List.sorted_insertionSort _ l

theorem sortByKeyNat_perm {α : Type} (key : α → Nat) (l : List α) :
    (sortByKeyNat key l).Perm l :=
  List.perm_insertionSort _ l

theorem cumTriples_enumFrom (l : List (CandidateId × Nat)) :
    ∀ (acc i : Nat), List.enumFrom i (cumTriples acc l) =
      (List.range l.length).map (fun k =>
        (i + k, ((l.getD k (0, 0)).1, (l.getD k (0, 0)).2,
          acc + ((l.map (fun p => p.2)).take k).sum))) := by
  induction l with
  | nil => intro acc i; rfl
  | cons p rest ih =>
    intro acc i
    show (i, (p.1, p.2, acc)) :: List.enumFrom (i + 1) (cumTriples (acc + p.2) rest) = _
    rw [ih (acc + p.2) (i + 1)]
    rw [show (p :: rest).length = rest.length + 1 from rfl]
    rw [List.range_succ_eq_map, List.map_cons, List.map_map]
    congr 1
    simp
    intro a _
    exact ⟨by omega, by omega⟩

/-- The batch elimination of the source agrees with the prev-cum/largest-gap
characterization used by the specification. -/
theorem batch_eq_spec (tally : List (CandidateId × Nat)) :
    find_eliminated_candidates_batch tally = batchEliminationSpec tally := by
  unfold find_eliminated_candidates_batch batchEliminationSpec
  dsimp only
  set s := sortByKeyNat (fun p => p.2) tally with hs
  have henum : (cumTriples 0 s).enum
      = (List.range s.length).map
          (fun k => (k, ((s.getD k (0, 0)).1, (s.getD k (0, 0)).2,
            ((s.map (fun p => p.2)).take k).sum))) := by
    have h := cumTriples_enumFrom s 0 0
    rw [show (cumTriples 0 s).enum = List.enumFrom 0 (cumTriples 0 s) from rfl, h]
    apply List.map_congr_left
    intro a _
    simp
  rw [henum, List.filter_map]
  have hfilter : (List.range s.length).filter
      ((fun q : Nat × CandidateId × Nat × Nat => decide (q.2.2.2 < q.2.2.1)) ∘
        (fun k => (k, ((s.getD k (0, 0)).1, (s.getD k (0, 0)).2,
          ((s.map (fun p => p.2)).take k).sum))))
      = (List.range s.length).filter
        (fun k => decide (((s.map (fun p => p.2)).take k).sum
          < (s.map (fun p => p.2)).getD k 0)) := by
    apply List.filter_congr
    intro k hk
    have hk2 : k < s.length := List.mem_range.mp hk
    have hgd : (s.getD k (0, 0)).2 = (s.map (fun p => p.2)).getD k 0 := by
      rw [List.getD_eq_getElem?_getD, List.getD_eq_getElem?_getD,
        List.getElem?_map, List.getElem?_eq_getElem hk2]
      rfl
    simp only [Function.comp]
    exact congrArg (fun x =>
      decide (((s.map (fun p => p.2)).take k).sum < x)) hgd
  rw [hfilter, List.getLast?_map]
  cases hlast : ((List.range s.length).filter
      (fun k => decide (((s.map (fun p => p.2)).take k).sum
        < (s.map (fun p => p.2)).getD k 0))).getLast? with
  | none => rfl
  | some k => rfl

/-! ## Claim theorems -/

/-- Claim C1, counterexample: on the tally `{A: 5}` (with `Batch` rules)
neither batch elimination nor single-candidate elimination produces a
candidate to eliminate, yet `find_eliminated_candidates` fails with
`EmptyElection`, not with `NoCandidateToEliminate`; an entire round over an
empty candidate list fails the same way.  This refutes the claim that such a
round fails with `NoCandidateToEliminate`. -/
theorem C1_counterexample :
    find_eliminated_candidates [(1, 5)] EliminationAlgorithm.Batch
      TieBreakMode.UseCandidateOrder [("A", 1)] 1
      = Except.error VotingErrors.EmptyElection ∧
    find_eliminated_candidates_batch [(1, 5)] = none ∧
    find_eliminated_candidates_single [(1, 5)] TieBreakMode.UseCandidateOrder
      [("A", 1)] 1 = none ∧
    run_one_round [] EliminationAlgorithm.Single TieBreakMode.UseCandidateOrder
      DuplicateCandidateMode.SkipDuplicate OverVoteRule.AlwaysSkipToNextRank
      MaxSkippedRank.Unlimited [] 1
      = Except.error (RunError.err VotingErrors.EmptyElection) ∧
    VotingErrors.EmptyElection ≠ VotingErrors.NoCandidateToEliminate :=
  ⟨rfl, rfl, rfl, rfl, by decide⟩

/-- Claim C1, amended: whenever neither batch elimination nor
single-candidate elimination produces a candidate to eliminate, the round
fails with `EmptyElection` (the `NoCandidateToEliminate` error of
`run_one_round` is reserved for an elimination call that returns an empty
candidate list, which the elimination functions never do). -/
theorem C1_amended_empty_election (tally : List (CandidateId × Nat))
    (alg : EliminationAlgorithm) (tb : TieBreakMode)
    (candidate_names : List (String × CandidateId)) (num_round : Nat)
    (hb : find_eliminated_candidates_batch tally = none)
    (hs : find_eliminated_candidates_single tally tb candidate_names num_round = none) :
    find_eliminated_candidates tally alg tb candidate_names num_round
      = Except.error VotingErrors.EmptyElection :=
  find_neither_empty_election tally alg tb candidate_names num_round hb hs

/-- Witness for `C1_amended_empty_election` at the concrete tally `{A: 5}`
under the `Single` algorithm. -/
theorem C1_witness :
    find_eliminated_candidates [(1, 5)] EliminationAlgorithm.Single
      TieBreakMode.UseCandidateOrder [("A", 1)] 1
      = Except.error VotingErrors.EmptyElection :=
  C1_amended_empty_election [(1, 5)] EliminationAlgorithm.Single
    TieBreakMode.UseCandidateOrder [("A", 1)] 1 (by rfl) (by rfl)

/-- Claim C2: a raw ballot whose first choice names a candidate flagged
`excluded` makes the validator hit
`unimplemented!("blacklisted not implemented")` (`lib.rs` 1216-1218) — a
panic — instead of treating the choice as `Undeclared` and returning
normally as the claim requires. -/
theorem C2_excluded_candidate_panics :
    checks [⟨[BallotChoice.Candidate "X"], 1⟩] [⟨"X", none, true⟩]
      DuplicateCandidateMode.SkipDuplicate OverVoteRule.AlwaysSkipToNextRank
      MaxSkippedRank.Unlimited
    = Except.error (RunError.panic "blacklisted not implemented") := by
  rfl

/-- Claim C3, counterexample: with `max_rankings_allowed = Some 1`, the
ballots `[B, A] (count 1)` and `[A] (count 2)` over candidates `A, B` give a
different election result than their 1-entry truncations (the un-truncated
second rank transfers to `A` when `B` is eliminated; the truncated ballot
exhausts), so ballots are not truncated before validation and later ranks do
influence rounds. -/
theorem C3_counterexample :
    run_voting_stats
      [⟨[BallotChoice.Candidate "B", BallotChoice.Candidate "A"], 1⟩,
       ⟨[BallotChoice.Candidate "A"], 2⟩]
      { VoteRules.DEFAULT_RULES with max_rankings_allowed := some 1 }
      (some [⟨"A", none, false⟩, ⟨"B", none, false⟩]) ≠
    run_voting_stats
      ([⟨[BallotChoice.Candidate "B", BallotChoice.Candidate "A"], 1⟩,
        ⟨[BallotChoice.Candidate "A"], 2⟩].map (truncateBallot 1))
      { VoteRules.DEFAULT_RULES with max_rankings_allowed := some 1 }
      (some [⟨"A", none, false⟩, ⟨"B", none, false⟩]) := by
  decide

/-- Claim C3, amended: the engine never reads `max_rankings_allowed`; no
truncation happens and the election result is identical for any two values
of the field, all other inputs equal. -/
theorem C3_amended_max_rankings_ignored (coll : List Ballot) (rules : VoteRules)
    (candidates_o : Option (List Candidate)) (x y : Option Nat) :
    run_voting_stats coll { rules with max_rankings_allowed := x } candidates_o =
    run_voting_stats coll { rules with max_rankings_allowed := y } candidates_o := by
  cases rules
  rfl

/-- Claim C4, counterexample: the raw ballot `[A]` with count 0 is not
dropped by the validator — it is placed in the first-round bucket as a
weight-0 internal vote (the claim says it is placed in no bucket). -/
theorem C4_counterexample :
    checks [⟨[BallotChoice.Candidate "A"], 0⟩] [⟨"A", none, false⟩]
      DuplicateCandidateMode.SkipDuplicate OverVoteRule.AlwaysSkipToNextRank
      MaxSkippedRank.Unlimited
    = Except.ok ⟨[⟨⟨1, []⟩, 0⟩], [("A", 1)], [], 0⟩ := by
  rfl

/-- Claim C4, amended: a weight-0 ballot is kept by the validator (see
`C4_counterexample`) but contributes nothing to any round's tally: removing
a weight-0 internal vote leaves `compute_tally` unchanged. -/
theorem C4_amended_zero_weight_tally_invariant
    (candidate_names : List (String × CandidateId))
    (votes1 votes2 : List VoteInternal) (v : VoteInternal) (h : v.count = 0) :
    compute_tally (votes1 ++ v :: votes2) candidate_names
      = compute_tally (votes1 ++ votes2) candidate_names := by
  unfold compute_tally
  rw [List.foldl_append, List.foldl_append, List.foldl_cons, h, hmBumpIfPresent_zero]

/-- Witness for `C4_amended_zero_weight_tally_invariant` at a concrete
weight-0 vote between two weighted votes. -/
theorem C4_witness :
    compute_tally ([⟨⟨1, []⟩, 2⟩] ++ ⟨⟨1, []⟩, 0⟩ :: [⟨⟨2, []⟩, 1⟩])
      [("A", 1), ("B", 2)]
      = compute_tally ([⟨⟨1, []⟩, 2⟩] ++ [⟨⟨2, []⟩, 1⟩]) [("A", 1), ("B", 2)] :=
  C4_amended_zero_weight_tally_invariant [("A", 1), ("B", 2)]
    [⟨⟨1, []⟩, 2⟩] [⟨⟨2, []⟩, 1⟩] ⟨⟨1, []⟩, 0⟩ rfl

/-- Claim C5: in a round whose elimination resolved a tie-break
(`TiebreakOccured`), no candidate is marked `Elected` — even one at or above
the winning threshold — and every non-eliminated candidate is carried as
`StillRunning`. -/
theorem C5_tiebreak_suppresses_election (votes : List VoteInternal)
    (alg : EliminationAlgorithm) (tb : TieBreakMode)
    (dup : DuplicateCandidateMode) (ov : OverVoteRule) (skip : MaxSkippedRank)
    (candidate_names : List (String × CandidateId)) (num_round : Nat)
    (elim : List CandidateId) (rr : RoundResult)
    (hfind : find_eliminated_candidates (compute_tally votes candidate_names)
      alg tb candidate_names num_round
      = Except.ok (elim, TiebreakSituation.TiebreakOccured))
    (hrun : run_one_round votes alg tb dup ov skip candidate_names num_round
      = Except.ok rr) :
    ∀ q ∈ rr.stats.candidate_stats,
      q.2.2 ≠ RoundCandidateStatusInternal.Elected ∧
      (q.2.2 = RoundCandidateStatusInternal.StillRunning ∨
        ∃ t e, q.2.2 = RoundCandidateStatusInternal.Eliminated t e) := by
  by_cases hlen : (compute_tally votes candidate_names).length = 1
  · exfalso
    obtain ⟨p, hp⟩ := List.length_eq_one.mp hlen
    rw [hp, find_singleton_error] at hfind
    exact Except.noConfusion hfind
  · unfold run_one_round at hrun
    rw [if_neg hlen, hfind] at hrun
    dsimp only at hrun
    by_cases helim : elim.isEmpty
    · rw [if_pos helim] at hrun
      exact Except.noConfusion hrun
    · rw [if_neg helim] at hrun
      rw [if_neg (by decide :
        ¬ (TiebreakSituation.TiebreakOccured = TiebreakSituation.Clean))] at hrun
      have hrr := (Except.ok.inj hrun).symm
      rw [hrr]
      exact buildCandidateStats_no_winners _ _

/-- Witness for `C5_tiebreak_suppresses_election`: candidates `A, B, C` with
tallies `3, 1, 1`; the threshold is 3 and `A` reaches it, but the `B`/`C`
tie-break suppresses the election, leaving `A` and `B` `StillRunning` while
`C` is eliminated. -/
theorem C5_witness :
    get_threshold (compute_tally [⟨⟨1, []⟩, 3⟩, ⟨⟨2, []⟩, 1⟩, ⟨⟨3, []⟩, 1⟩]
        [("A", 1), ("B", 2), ("C", 3)]) = 3 ∧
    ((1 : CandidateId), (3 : Nat), RoundCandidateStatusInternal.StillRunning).2.2
      = RoundCandidateStatusInternal.StillRunning :=
  ⟨rfl,
    (C5_tiebreak_suppresses_election [⟨⟨1, []⟩, 3⟩, ⟨⟨2, []⟩, 1⟩, ⟨⟨3, []⟩, 1⟩]
      EliminationAlgorithm.Single TieBreakMode.UseCandidateOrder
      DuplicateCandidateMode.SkipDuplicate OverVoteRule.AlwaysSkipToNextRank
      MaxSkippedRank.Unlimited [("A", 1), ("B", 2), ("C", 3)] 1 [3]
      ⟨[⟨⟨1, []⟩, 3⟩, ⟨⟨2, []⟩, 1⟩],
        ⟨[(1, 3, RoundCandidateStatusInternal.StillRunning),
          (2, 1, RoundCandidateStatusInternal.StillRunning),
          (3, 1, RoundCandidateStatusInternal.Eliminated [] 1)], none⟩, 3⟩
      (by rfl) (by rfl)
      ((1 : CandidateId), (3 : Nat), RoundCandidateStatusInternal.StillRunning)
      (by decide)).2.resolve_right
      (by rintro ⟨t, e, h⟩; cases h)⟩

/-- Claim C6: under `UseCandidateOrder`, when at least two candidates are
tied at the round minimum and the tied set is not all of the tally, exactly
one candidate is eliminated — a tied candidate whose position in the
declared order is maximal — with status `TiebreakOccured`. -/
theorem C6_candidate_order_eliminates_latest (tally : List (CandidateId × Nat))
    (candidate_names : List (String × CandidateId)) (num_round : Nat)
    (hsub : ∀ cid ∈ allSmallest tally, cid ∈ candidate_names.map (fun p => p.2))
    (h2 : 2 ≤ (allSmallest tally).length)
    (hneq : (allSmallest tally).length ≠ tally.length) :
    ∃ c, find_eliminated_candidates_single tally TieBreakMode.UseCandidateOrder
        candidate_names num_round = some ([c], TiebreakSituation.TiebreakOccured)
      ∧ c ∈ allSmallest tally
      ∧ ∀ d ∈ allSmallest tally,
          candidateOrderKey candidate_names d ≤ candidateOrderKey candidate_names c := by
  match tally, h2, hneq with
  | [], h2, _ => simp [allSmallest] at h2
  | [p], h2, _ =>
      exfalso
      have hle : (allSmallest [p]).length ≤ 1 := by
        have h := List.length_filterMap_le
          (fun q : CandidateId × Nat =>
            if q.2 ≤ minCount [p] then some q.1 else none) [p]
        simpa [allSmallest] using h
      omega
  | a :: b :: t, h2, hneq =>
      have hlen1 : ¬ ((allSmallest (a :: b :: t)).length = 1) := by omega
      have hpermlen : (sortByKeyNat (candidateOrderKey candidate_names)
          (allSmallest (a :: b :: t))).length = (allSmallest (a :: b :: t)).length :=
        (sortByKeyNat_perm _ _).length_eq
      have hsne : sortByKeyNat (candidateOrderKey candidate_names)
          (allSmallest (a :: b :: t)) ≠ [] := by
        intro h0
        rw [h0] at hpermlen
        simp at hpermlen
        omega
      refine ⟨(sortByKeyNat (candidateOrderKey candidate_names)
        (allSmallest (a :: b :: t))).getLast hsne, ?_, ?_, ?_⟩
      · unfold find_eliminated_candidates_single
        rw [if_neg hlen1]
        dsimp only
        rw [if_neg (by
          rw [List.length_reverse, hpermlen]
          exact hneq)]
        rw [reverse_take_one _ hsne]
      · exact (sortByKeyNat_perm _ _).mem_iff.mp (List.getLast_mem hsne)
      · intro d hd
        exact key_le_getLast (candidateOrderKey candidate_names) _
          (sortByKeyNat_sorted _ _) hsne d ((sortByKeyNat_perm _ _).mem_iff.mpr hd)

/-- Witness for `C6_candidate_order_eliminates_latest`: candidates `A, B, C`
declared in this order with tallies `1, 1, 2`: `A` and `B` are tied at the
minimum and `B`, declared latest among the tied, is eliminated. -/
theorem C6_witness :
    ∃ c, find_eliminated_candidates_single [(1, 1), (2, 1), (3, 2)]
        TieBreakMode.UseCandidateOrder [("A", 1), ("B", 2), ("C", 3)] 1
        = some ([c], TiebreakSituation.TiebreakOccured)
      ∧ c ∈ allSmallest [(1, 1), (2, 1), (3, 2)]
      ∧ ∀ d ∈ allSmallest [(1, 1), (2, 1), (3, 2)],
          candidateOrderKey [("A", 1), ("B", 2), ("C", 3)] d
            ≤ candidateOrderKey [("A", 1), ("B", 2), ("C", 3)] c :=
  C6_candidate_order_eliminates_latest [(1, 1), (2, 1), (3, 2)]
    [("A", 1), ("B", 2), ("C", 3)] 1 (by decide) (by decide) (by decide)

/-- Claim C7: batch elimination agrees, on every tally, with the
specification's characterization (sort ascending, exclusive cumulative sums,
largest strict gap `k`, eliminate the first `k` candidates when `k > 0`),
and on the tally `{A:1, B:2, C:3, D:10}` it eliminates exactly `{A, B, C}`. -/
theorem C7_batch_elimination_characterization :
    (∀ tally : List (CandidateId × Nat),
      find_eliminated_candidates_batch tally = batchEliminationSpec tally) ∧
    find_eliminated_candidates_batch [(1, 1), (2, 2), (3, 3), (4, 10)]
      = some [1, 2, 3] :=
  ⟨batch_eq_spec, rfl⟩

/-- Claim C8: under single-winner majority the winning threshold of a round
tally is `floor(total/2) + 1` where `total` is the sum of the current ballot
weights, and `0` when that total is `0`. -/
theorem C8_threshold_majority (votes : List VoteInternal)
    (candidate_names : List (String × CandidateId))
    (h : ∀ v ∈ votes, v.candidates.first_valid ∈ candidate_names.map (fun p => p.2)) :
    get_threshold (compute_tally votes candidate_names)
      = (if (votes.map (fun v => v.count)).sum = 0 then 0
         else (votes.map (fun v => v.count)).sum / 2 + 1) := by
  unfold get_threshold
  rw [compute_tally_sum votes candidate_names h]

/-- Witness for `C8_threshold_majority`: weights `3` and `2` give the
threshold `floor(5/2) + 1 = 3`. -/
theorem C8_witness :
    get_threshold (compute_tally [⟨⟨1, []⟩, 3⟩, ⟨⟨2, []⟩, 2⟩]
      [("A", 1), ("B", 2)]) = 3 := by
  rw [C8_threshold_majority [⟨⟨1, []⟩, 3⟩, ⟨⟨2, []⟩, 2⟩]
    [("A", 1), ("B", 2)] (by decide)]
  decide

/-- Claim C9: under `MaxAllowed(2)` the advancement function accepts the
choices `[Overvote, Blank, Blank, Blank, A]` even though the prefix before
`A` contains a contiguous run of three (= n+1) blanks, which the claim (and
the rule's own documentation in `config.rs`) says must be rejected: the
guarded match arm of the skip loop falls through to the wildcard on a
continuing blank and resets the run start, so runs longer than two are never
detected when `n ≥ 2`. -/
theorem C9_max_allowed_misses_blank_runs :
    advance_voting
      [Choice.Overvote, Choice.BlankOrUndervote, Choice.BlankOrUndervote,
       Choice.BlankOrUndervote, Choice.Filled 1] [1]
      DuplicateCandidateMode.SkipDuplicate OverVoteRule.AlwaysSkipToNextRank
      (MaxSkippedRank.MaxAllowed 2)
    = some (1, []) ∧
    hasBlankRun 3
      [Choice.Overvote, Choice.BlankOrUndervote, Choice.BlankOrUndervote,
       Choice.BlankOrUndervote] = true :=
  ⟨rfl, rfl⟩

/-- Claim C10: the engine's result is identical for any two values of
`minimum_vote_threshold`, all other inputs equal — the field is never read. -/
theorem C10_minimum_vote_threshold_ignored (coll : List Ballot)
    (rules : VoteRules) (candidates_o : Option (List Candidate))
    (x y : Option Nat) :
    run_voting_stats coll { rules with minimum_vote_threshold := x } candidates_o =
    run_voting_stats coll { rules with minimum_vote_threshold := y } candidates_o := by
  cases rules
  rfl
